import Mathlib

/-!
Verification of the synchronization engine of the obsidian-wikidocs-plugin
repository against its natural-language specification.

The TypeScript sources are embedded shallowly:

* JavaScript strings are modelled as `List Char` (`Chars`); the string
  helpers the engine uses (`trim`, `split`, `indexOf`, `slice`,
  `replace`-once, character filtering) are re-implemented on that type.
* Dynamically typed header values (`string | number | null | undefined`,
  plus `NaN` results of `parseInt`) are the inductive `JVal`.
* `Number(v)` coercion is modelled for optional-sign decimal integer
  numerals (and the empty string, which JavaScript coerces to `0`).  The
  further numeric forms JavaScript accepts (fractions, exponents, hex)
  never occur in the headers this development evaluates.
* Asynchronous I/O (vault reads/writes, HTTP calls) is modelled by explicit
  state passing: the transport is an oracle assigning a response to each
  call, and each engine operation returns the list of outward calls it
  performed, in order, together with its result.
-/

abbrev Chars := List Char

/-- The whitespace characters relevant to the headers handled here
(JavaScript's `trim` accepts further exotic whitespace). -/
def isJsSpace (c : Char) : Bool := c = ' ' || c = '\t' || c = '\n' || c = '\r'

/-- Leading-whitespace removal, as in the left half of `String.prototype.trim`. -/
def trimLeft (s : Chars) : Chars := s.dropWhile isJsSpace

/-- Model of `String.prototype.trim`: drop leading and trailing whitespace. -/
def jsTrim (s : Chars) : Chars := ((trimLeft s).reverse.dropWhile isJsSpace).reverse

/-- Model of `String.prototype.indexOf` for a single character, as an optional index. -/
def jsIndexOf (c : Char) : Chars → Option Nat
  | [] => none
  | x :: xs => if x = c then some 0 else (jsIndexOf c xs).map (· + 1)

/-- Model of `String.prototype.split` with a one-character separator. -/
def splitOnCharAux (sep : Char) : Chars → Chars → List Chars
  | [], acc => [acc.reverse]
  | c :: rest, acc =>
    if c = sep then acc.reverse :: splitOnCharAux sep rest []
    else splitOnCharAux sep rest (c :: acc)

def splitOnChar (sep : Char) (s : Chars) : List Chars := splitOnCharAux sep s []

/-- The character for a decimal digit, `'0'` through `'9'`. -/
def digitChar (d : Nat) : Char := Char.ofNat (48 + d)

/-- Decimal rendering of a natural number, most significant digit first,
written with an explicit fuel argument so that concrete renderings reduce
inside the kernel. -/
def digitCharsAux : Nat → Nat → Chars
  | 0, _ => []
  | fuel + 1, n =>
    if n < 10 then [digitChar n]
    else digitCharsAux fuel (n / 10) ++ [digitChar (n % 10)]

/-- Decimal rendering of a natural number; the model of how a JavaScript
template literal writes a non-negative integer. -/
def digitChars (n : Nat) : Chars := digitCharsAux (n + 1) n

theorem digitCharsAux_fuel {f1 f2 n : Nat} (hf1 : n < f1) (hf2 : n < f2) :
    digitCharsAux f1 n = digitCharsAux f2 n := by
  induction f1 generalizing f2 n with
  | zero => omega
  | succ f ih =>
    cases f2 with
    | zero => omega
    | succ g =>
      rw [digitCharsAux, digitCharsAux]
      by_cases h : n < 10
      · rw [if_pos h, if_pos h]
      · have hstep := @ih g (n / 10) (by omega) (by omega)
        rw [if_neg h, if_neg h, hstep]

/-- Decimal rendering of an integer, the model of `` `${i}` `` for the
integer-valued numbers occurring in headers. -/
def intToChars (i : Int) : Chars :=
  if i < 0 then '-' :: digitChars i.natAbs else digitChars i.natAbs

def isDigitChar (c : Char) : Bool := '0' ≤ c && c ≤ '9'

def digitVal (c : Char) : Nat := c.toNat - 48

/-- The number denoted by a run of decimal digits, most significant first. -/
def digitsValue : Chars → Nat
  | [] => 0
  | c :: cs => digitVal c * 10 ^ cs.length + digitsValue cs

/-- Model of `Number(value)` on the strings this engine produces: after trimming, the
empty string coerces to `0` and an optional-sign decimal numeral to its
value; everything else is `NaN`, reported as `none`.  (JavaScript also
accepts fraction, exponent and hex forms; none arise in these headers.) -/
def jsNumber (s : Chars) : Option Int :=
  match jsTrim s with
  | [] => some 0
  | c :: rest =>
    if c = '-' then
      if rest ≠ [] ∧ rest.all isDigitChar then some (-(digitsValue rest : Int)) else none
    else if c = '+' then
      if rest ≠ [] ∧ rest.all isDigitChar then some ((digitsValue rest : Int)) else none
    else if (c :: rest).all isDigitChar then some ((digitsValue (c :: rest) : Int)) else none

/-! ### Arithmetic facts about the decimal rendering -/

theorem digitChars_of_lt {n : Nat} (h : n < 10) : digitChars n = [digitChar n] := by
  rw [digitChars, digitCharsAux, if_pos h]

theorem digitChars_of_ge {n : Nat} (h : 10 ≤ n) :
    digitChars n = digitChars (n / 10) ++ [digitChar (n % 10)] := by
  have hstep := @digitCharsAux_fuel n (n / 10 + 1) (n / 10) (by omega) (by omega)
  rw [digitChars, digitCharsAux, if_neg (by omega), hstep, digitChars]

theorem digitVal_digitChar {d : Nat} (h : d < 10) : digitVal (digitChar d) = d :=
  (by decide : ∀ d ∈ List.range 10, digitVal (digitChar d) = d) d (List.mem_range.mpr h)

theorem isDigitChar_digitChar {d : Nat} (h : d < 10) : isDigitChar (digitChar d) = true :=
  (by decide : ∀ d ∈ List.range 10, isDigitChar (digitChar d) = true) d (List.mem_range.mpr h)

theorem digitsValue_append (a b : Chars) :
    digitsValue (a ++ b) = digitsValue a * 10 ^ b.length + digitsValue b := by
  induction a with
  | nil => simp [digitsValue]
  | cons c cs ih =>
    show digitsValue (c :: (cs ++ b)) = _
    rw [digitsValue, ih, digitsValue, List.length_append]
    ring

theorem digitsValue_digitChars (n : Nat) : digitsValue (digitChars n) = n := by
  induction n using Nat.strongRecOn with
  | _ n ih =>
    by_cases h : n < 10
    · simp [digitChars_of_lt h, digitsValue, digitVal_digitChar h]
    · rw [digitChars_of_ge (by omega), digitsValue_append,
        ih (n / 10) (Nat.div_lt_self (by omega) (by omega))]
      simp [digitsValue, digitVal_digitChar (Nat.mod_lt n (by omega))]
      omega

theorem mem_digitChars_isDigit (n : Nat) : ∀ c ∈ digitChars n, isDigitChar c = true := by
  induction n using Nat.strongRecOn with
  | _ n ih =>
    by_cases h : n < 10
    · simp only [digitChars_of_lt h, List.mem_singleton]
      intro c hc; exact hc ▸ isDigitChar_digitChar h
    · rw [digitChars_of_ge (by omega)]
      intro c hc
      rcases List.mem_append.mp hc with h1 | h1
      · exact ih (n / 10) (Nat.div_lt_self (by omega) (by omega)) c h1
      · simp only [List.mem_singleton] at h1
        exact h1 ▸ isDigitChar_digitChar (Nat.mod_lt n (by omega))

theorem digitChars_ne_nil (n : Nat) : digitChars n ≠ [] := by
  by_cases h : n < 10
  · simp [digitChars_of_lt h]
  · simp [digitChars_of_ge (show 10 ≤ n by omega)]

theorem isDigitChar_not_space {c : Char} (h : isDigitChar c = true) : isJsSpace c = false := by
  simp only [isDigitChar, Bool.and_eq_true, decide_eq_true_eq] at h
  revert h
  simp only [isJsSpace]
  intro h
  rcases h with ⟨h1, h2⟩
  simp only [Bool.or_eq_false_iff, decide_eq_false_iff_not]
  refine ⟨⟨⟨?_, ?_⟩, ?_⟩, ?_⟩ <;> rintro rfl <;> revert h1 h2 <;> decide

theorem jsTrim_of_no_space {s : Chars} (h : ∀ c ∈ s, isJsSpace c = false) :
    jsTrim s = s := by
  have h1 : trimLeft s = s := by
    cases s with
    | nil => rfl
    | cons c cs => simp [trimLeft, List.dropWhile_cons, h c (by simp)]
  rw [jsTrim, h1]
  have h2 : s.reverse.dropWhile isJsSpace = s.reverse := by
    cases hr : s.reverse with
    | nil => rfl
    | cons c cs =>
      have hc : c ∈ s := by
        have : c ∈ s.reverse := by rw [hr]; simp
        simpa using this
      simp [List.dropWhile_cons, h c hc]
  rw [h2, List.reverse_reverse]

theorem jsTrim_digitChars (n : Nat) : jsTrim (digitChars n) = digitChars n :=
  jsTrim_of_no_space (fun c hc => isDigitChar_not_space (mem_digitChars_isDigit n c hc))

theorem digitChar_ne_sign {d : Nat} (h : d < 10) : digitChar d ≠ '-' ∧ digitChar d ≠ '+' :=
  (by decide : ∀ d ∈ List.range 10, digitChar d ≠ '-' ∧ digitChar d ≠ '+') d
    (List.mem_range.mpr h)

theorem jsNumber_digitChars (n : Nat) : jsNumber (digitChars n) = some (n : Int) := by
  have hne := digitChars_ne_nil n
  have hall : (digitChars n).all isDigitChar = true :=
    List.all_eq_true.mpr (mem_digitChars_isDigit n)
  have hhead : ∀ c cs, digitChars n = c :: cs → c ≠ '-' ∧ c ≠ '+' := by
    intro c cs heq
    have hc : isDigitChar c = true := by
      have := mem_digitChars_isDigit n c (by rw [heq]; simp)
      exact this
    constructor <;> rintro rfl <;> revert hc <;> decide
  cases hd : digitChars n with
  | nil => exact absurd hd hne
  | cons c cs =>
    have hcne := hhead c cs hd
    have htrim : jsTrim (digitChars n) = c :: cs := by rw [jsTrim_digitChars, hd]
    have hall2 : (c :: cs).all isDigitChar = true := by rw [← hd]; exact hall
    have hval : digitsValue (c :: cs) = n := by rw [← hd, digitsValue_digitChars]
    rw [hd] at htrim
    rw [jsNumber, htrim]
    simp [hcne.1, hcne.2, hall2, hval]

theorem jsNumber_intToChars (i : Int) : jsNumber (intToChars i) = some i := by
  rw [intToChars]
  by_cases h : i < 0
  · rw [if_pos h]
    have hne := digitChars_ne_nil i.natAbs
    have hall : (digitChars i.natAbs).all isDigitChar = true :=
      List.all_eq_true.mpr (mem_digitChars_isDigit i.natAbs)
    have hnospace : ∀ c ∈ '-' :: digitChars i.natAbs, isJsSpace c = false := by
      intro c hc
      rcases List.mem_cons.mp hc with rfl | hc
      · decide
      · exact isDigitChar_not_space (mem_digitChars_isDigit i.natAbs c hc)
    rw [jsNumber, jsTrim_of_no_space hnospace]
    simp only [if_pos rfl, hne, hall, ne_eq, not_false_iff, and_self, if_true]
    congr 1
    rw [digitsValue_digitChars]
    omega
  · rw [if_neg h]
    rw [jsNumber_digitChars]
    congr 1
    omega

/-! ### Splitting text into lines -/

theorem splitOnCharAux_append {sep : Char} {a : Chars} (ha : sep ∉ a) (rest acc : Chars) :
    splitOnCharAux sep (a ++ sep :: rest) acc =
      (acc.reverse ++ a) :: splitOnCharAux sep rest [] := by
  induction a generalizing acc with
  | nil => simp [splitOnCharAux]
  | cons c cs ih =>
    have hc : ¬(c = sep) := by rintro rfl; exact ha (by simp)
    have hcs : sep ∉ cs := fun h => ha (List.mem_cons_of_mem _ h)
    simp [splitOnCharAux, hc, ih hcs]

/-- Newline-terminated concatenation of lines: the shape in which the codec
writes a header. -/
def mkLines : List Chars → Chars
  | [] => []
  | l :: ls => l ++ '\n' :: mkLines ls

theorem splitOnChar_mkLines (L : List Chars) (h : ∀ l ∈ L, '\n' ∉ l) :
    splitOnChar '\n' (mkLines L) = L ++ [[]] := by
  induction L with
  | nil => rfl
  | cons l ls ih =>
    rw [mkLines, splitOnChar, splitOnCharAux_append (h l (by simp))]
    simp only [List.reverse_nil, List.nil_append, List.cons_append]
    rw [← splitOnChar, ih (fun l' hl' => h l' (List.mem_cons_of_mem _ hl'))]

/-! ### Dynamically typed header values -/

/-- A JavaScript value as it occurs in a parsed header record:
a number (integer-valued in every run this development evaluates),
a string, `NaN` (the result of a failed `parseInt`), `null`, or
`undefined` (a missing object property). -/
inductive JVal where
  | num (n : Int)
  | str (s : Chars)
  | nan
  | jnull
  | undefined
  deriving DecidableEq, Repr

/-- JavaScript truthiness of a header value: `0`, `""`, `NaN`, `null` and
`undefined` are falsy. -/
def jsTruthy : JVal → Bool
  | .num n => n != 0
  | .str s => s != []
  | .nan => false
  | .jnull => false
  | .undefined => false

/-- How a template literal writes a value. -/
def renderJVal : JVal → Chars
  | .num n => intToChars n
  | .str s => s
  | .nan => "NaN".data
  | .jnull => "null".data
  | .undefined => "undefined".data

/-- The nullish-coalescing operator `v ?? d`. -/
def nullishCoalesce (v d : JVal) : JVal :=
  match v with
  | .jnull => d
  | .undefined => d
  | _ => v

/-- Model of `parseInt(s)`: skip leading whitespace, read an optional sign and a
maximal run of leading digits, ignore any trailing text; `NaN` when no
digit is found. -/
def jsParseInt (s : Chars) : JVal :=
  match trimLeft s with
  | '-' :: rest =>
    let ds := rest.takeWhile isDigitChar
    if ds = [] then .nan else .num (-(digitsValue ds : Int))
  | '+' :: rest =>
    let ds := rest.takeWhile isDigitChar
    if ds = [] then .nan else .num ((digitsValue ds : Int))
  | t =>
    let ds := t.takeWhile isDigitChar
    if ds = [] then .nan else .num ((digitsValue ds : Int))

/-- The replacement `value.replace(/^"|"$/g, "")`: one leading and one
trailing double quote are removed. -/
def stripQuotesOnce (s : Chars) : Chars :=
  let s1 := match s with
    | '"' :: rest => rest
    | _ => s
  if s1.getLast? = some '"' then s1.dropLast else s1

/-- The value coercion the header parser applies to each `key: value` line:
`isNaN(Number(value)) ? value : Number(value)`. -/
def coerceValue (v : Chars) : JVal :=
  match jsNumber v with
  | some n => .num n
  | none => .str v

/-- Property assignment on a plain object, modelled as an association list
(later assignments to the same key overwrite). -/
def jsObjSet : List (Chars × JVal) → Chars → JVal → List (Chars × JVal)
  | [], k, v => [(k, v)]
  | (k', v') :: rest, k, v =>
    if k' = k then (k, v) :: rest else (k', v') :: jsObjSet rest k v

/-- Property read on a plain object; a missing key is `undefined`. -/
def jsObjGet : List (Chars × JVal) → Chars → JVal
  | [], _ => .undefined
  | (k', v) :: rest, k => if k' = k then v else jsObjGet rest k

/-- The metadata record a document header decodes to.  Field values stay
dynamically typed, as in the TypeScript class whose type annotations are
not enforced at runtime. -/
structure PageMeta where
  id : JVal
  subject : JVal
  book_id : JVal
  parent_id : JVal
  open_yn : JVal
  last_synced : JVal
  deriving DecidableEq, Repr

/-- A header line `key: value` as the codec writes it. -/
def headerLine (k v : Chars) : Chars := k ++ ':' :: ' ' :: v

/-- The accumulating loop of the part_001 header parser: each line with a
colon contributes `metadata[key] = coerced value`, keyed by the text before
the first colon; lines without a colon are skipped. -/
def parseEntries : List Chars → List (Chars × JVal) → List (Chars × JVal)
  | [], o => o
  | line :: rest, o =>
    match jsIndexOf ':' line with
    | none => parseEntries rest o
    | some i =>
      parseEntries rest
        (jsObjSet o (jsTrim (line.take i)) (coerceValue (jsTrim (line.drop (i + 1)))))

namespace Part001

/-- Encoder `PageMetadata.getFrontMatter` of the part_001 revision: deterministic
field order, `book_id`/`parent_id` defaulting to `-1` via `??`, every value
written by a template literal.  (This revision's constructor stores the
fields unchanged; it does not quote `#`-bearing subjects.) -/
def getFrontMatter (r : PageMeta) : Chars :=
  "---\n".data ++
  ("id: ".data ++ renderJVal r.id ++ "\n".data) ++
  ("subject: ".data ++ renderJVal r.subject ++ "\n".data) ++
  ("book_id: ".data ++ renderJVal (nullishCoalesce r.book_id (.num (-1))) ++ "\n".data) ++
  ("parent_id: ".data ++ renderJVal (nullishCoalesce r.parent_id (.num (-1))) ++ "\n".data) ++
  ("open_yn: ".data ++ renderJVal r.open_yn ++ "\n".data) ++
  ("last_synced: ".data ++ renderJVal r.last_synced ++ "\n".data) ++
  "---\n".data

/-- Decoder `PageMetadata.fromFrontMatter` of the part_001 revision: split into
lines, collect `key: value` entries with numeric coercion, fail unless both
`id` and `subject` are truthy, unquote-and-`parseInt` a truthy string
`parent_id`, and build the record. -/
def unquoteParentId (pv : JVal) : JVal :=
  match pv with
  | .str s => if s = [] then pv else jsParseInt (stripQuotesOnce s)
  | _ => pv

def fromFrontMatter (text : Chars) : Except Unit PageMeta :=
  let lines := splitOnChar '\n' text
  let metadata := parseEntries lines []
  let idv := jsObjGet metadata "id".data
  let subjectv := jsObjGet metadata "subject".data
  if !jsTruthy idv || !jsTruthy subjectv then .error ()
  else
    .ok { id := idv, subject := subjectv,
          book_id := jsObjGet metadata "book_id".data,
          parent_id := unquoteParentId (jsObjGet metadata "parent_id".data),
          open_yn := jsObjGet metadata "open_yn".data,
          last_synced := jsObjGet metadata "last_synced".data }

end Part001

/-! ### Line-level parsing lemmas -/

theorem jsIndexOf_eq_none {c : Char} {l : Chars} (h : c ∉ l) : jsIndexOf c l = none := by
  induction l with
  | nil => rfl
  | cons x xs ih =>
    have hx : ¬(x = c) := by rintro rfl; exact h (by simp)
    simp [jsIndexOf, hx, ih (fun hm => h (List.mem_cons_of_mem _ hm))]

theorem jsIndexOf_append_colon {k : Chars} (hk : ':' ∉ k) (rest : Chars) :
    jsIndexOf ':' (k ++ ':' :: rest) = some k.length := by
  induction k with
  | nil => simp [jsIndexOf]
  | cons c cs ih =>
    have hc : ¬(c = ':') := by rintro rfl; exact hk (by simp)
    simp [jsIndexOf, hc, ih (fun hm => hk (List.mem_cons_of_mem _ hm))]

theorem trimLeft_cons_space (v : Chars) : trimLeft (' ' :: v) = trimLeft v := by
  simp [trimLeft, List.dropWhile_cons, isJsSpace]

theorem jsTrim_cons_space (v : Chars) : jsTrim (' ' :: v) = jsTrim v := by
  rw [jsTrim, jsTrim, trimLeft_cons_space]

theorem parseEntries_cons_header (k v : Chars) (hk : ':' ∉ k) (rest : List Chars)
    (o : List (Chars × JVal)) :
    parseEntries (headerLine k v :: rest) o =
      parseEntries rest (jsObjSet o (jsTrim k) (coerceValue (jsTrim v))) := by
  have ht : (k ++ ':' :: ' ' :: v).take k.length = k := List.take_left k (':' :: ' ' :: v)
  have hd : (k ++ ':' :: ' ' :: v).drop (k.length + 1) = ' ' :: v := by
    have h2 : (k ++ ':' :: ' ' :: v).drop (k.length + 1) =
        ((k ++ [':']) ++ ' ' :: v).drop (k ++ [':']).length := by
      simp
    rw [h2, List.drop_left]
  simp only [parseEntries, headerLine, jsIndexOf_append_colon hk, ht, hd, jsTrim_cons_space]

theorem parseEntries_cons_nocolon {l : Chars} (hl : ':' ∉ l) (rest : List Chars)
    (o : List (Chars × JVal)) :
    parseEntries (l :: rest) o = parseEntries rest o := by
  rw [parseEntries, jsIndexOf_eq_none hl]

/-! ### Facts about rendered field values -/

theorem mem_intToChars (i : Int) : ∀ c ∈ intToChars i, c = '-' ∨ isDigitChar c = true := by
  intro c hc
  rw [intToChars] at hc
  by_cases h : i < 0
  · rw [if_pos h] at hc
    rcases List.mem_cons.mp hc with rfl | hc
    · exact Or.inl rfl
    · exact Or.inr (mem_digitChars_isDigit _ c hc)
  · rw [if_neg h] at hc
    exact Or.inr (mem_digitChars_isDigit _ c hc)

theorem newline_not_mem_intToChars (i : Int) : '\n' ∉ intToChars i := by
  intro h
  rcases mem_intToChars i '\n' h with h1 | h1
  · exact absurd h1 (by decide)
  · exact absurd h1 (by decide)

theorem jsTrim_intToChars (i : Int) : jsTrim (intToChars i) = intToChars i := by
  refine jsTrim_of_no_space fun c hc => ?_
  rcases mem_intToChars i c hc with rfl | h1
  · decide
  · exact isDigitChar_not_space h1

theorem coerceValue_jsTrim_int (i : Int) :
    coerceValue (jsTrim (intToChars i)) = .num i := by
  rw [jsTrim_intToChars, coerceValue, jsNumber_intToChars]

/-- The side conditions under which a string survives the `key: value` line
format unchanged: stable under `trim`, free of newlines, and not coerced to
a number by the parser. -/
def NiceStr (s : Chars) : Prop := jsTrim s = s ∧ '\n' ∉ s ∧ jsNumber s = none

theorem coerceValue_jsTrim_nice {s : Chars} (h : NiceStr s) :
    coerceValue (jsTrim s) = .str s := by
  rw [h.1, coerceValue, h.2.2]

theorem niceStr_ne_nil {s : Chars} (h : NiceStr s) : s ≠ [] := by
  rintro rfl
  exact absurd h.2.2 (by decide)

/-- An optional numeric header field: absent, or an integer-valued number. -/
def NiceNumOpt (v : JVal) : Prop := v = .undefined ∨ ∃ n, v = .num n

/-- An optional string header field: absent, or a string that survives the
line format. -/
def NiceStrOpt (v : JVal) : Prop := v = .undefined ∨ ∃ s, v = .str s ∧ NiceStr s

theorem newline_not_mem_renderJVal_num (n : Int) : '\n' ∉ renderJVal (.num n) :=
  newline_not_mem_intToChars n

theorem newline_not_mem_renderJVal_undef : '\n' ∉ renderJVal .undefined := by decide

/-! ### Decoding an encoded header -/

theorem getFrontMatter_eq_mkLines (r : PageMeta) :
    Part001.getFrontMatter r = mkLines
      ["---".data,
       headerLine "id".data (renderJVal r.id),
       headerLine "subject".data (renderJVal r.subject),
       headerLine "book_id".data (renderJVal (nullishCoalesce r.book_id (.num (-1)))),
       headerLine "parent_id".data (renderJVal (nullishCoalesce r.parent_id (.num (-1)))),
       headerLine "open_yn".data (renderJVal r.open_yn),
       headerLine "last_synced".data (renderJVal r.last_synced),
       "---".data] := by
  simp [Part001.getFrontMatter, mkLines, headerLine]

theorem parseEntries_header_lines (w1 w2 w3 w4 w5 w6 : Chars) :
    parseEntries
      ["---".data,
       headerLine "id".data w1,
       headerLine "subject".data w2,
       headerLine "book_id".data w3,
       headerLine "parent_id".data w4,
       headerLine "open_yn".data w5,
       headerLine "last_synced".data w6,
       "---".data, []] [] =
    [("id".data, coerceValue (jsTrim w1)),
     ("subject".data, coerceValue (jsTrim w2)),
     ("book_id".data, coerceValue (jsTrim w3)),
     ("parent_id".data, coerceValue (jsTrim w4)),
     ("open_yn".data, coerceValue (jsTrim w5)),
     ("last_synced".data, coerceValue (jsTrim w6))] := by
  rw [parseEntries_cons_nocolon (by decide),
    parseEntries_cons_header _ _ (by decide),
    parseEntries_cons_header _ _ (by decide),
    parseEntries_cons_header _ _ (by decide),
    parseEntries_cons_header _ _ (by decide),
    parseEntries_cons_header _ _ (by decide),
    parseEntries_cons_header _ _ (by decide),
    parseEntries_cons_nocolon (by decide),
    parseEntries_cons_nocolon (by decide)]
  simp only [show jsTrim "id".data = "id".data from by decide,
    show jsTrim "subject".data = "subject".data from by decide,
    show jsTrim "book_id".data = "book_id".data from by decide,
    show jsTrim "parent_id".data = "parent_id".data from by decide,
    show jsTrim "open_yn".data = "open_yn".data from by decide,
    show jsTrim "last_synced".data = "last_synced".data from by decide]
  simp [parseEntries, jsObjSet]

theorem fromFrontMatter_getFrontMatter (r : PageMeta)
    (h1 : '\n' ∉ renderJVal r.id)
    (h2 : '\n' ∉ renderJVal r.subject)
    (h3 : '\n' ∉ renderJVal (nullishCoalesce r.book_id (.num (-1))))
    (h4 : '\n' ∉ renderJVal (nullishCoalesce r.parent_id (.num (-1))))
    (h5 : '\n' ∉ renderJVal r.open_yn)
    (h6 : '\n' ∉ renderJVal r.last_synced)
    (hid : jsTruthy (coerceValue (jsTrim (renderJVal r.id))) = true)
    (hsub : jsTruthy (coerceValue (jsTrim (renderJVal r.subject))) = true) :
    Part001.fromFrontMatter (Part001.getFrontMatter r) =
      .ok { id := coerceValue (jsTrim (renderJVal r.id)),
            subject := coerceValue (jsTrim (renderJVal r.subject)),
            book_id := coerceValue (jsTrim (renderJVal (nullishCoalesce r.book_id (.num (-1))))),
            parent_id := Part001.unquoteParentId
              (coerceValue (jsTrim (renderJVal (nullishCoalesce r.parent_id (.num (-1)))))),
            open_yn := coerceValue (jsTrim (renderJVal r.open_yn)),
            last_synced := coerceValue (jsTrim (renderJVal r.last_synced)) } := by
  have hnl : ∀ l ∈ ["---".data,
       headerLine "id".data (renderJVal r.id),
       headerLine "subject".data (renderJVal r.subject),
       headerLine "book_id".data (renderJVal (nullishCoalesce r.book_id (.num (-1)))),
       headerLine "parent_id".data (renderJVal (nullishCoalesce r.parent_id (.num (-1)))),
       headerLine "open_yn".data (renderJVal r.open_yn),
       headerLine "last_synced".data (renderJVal r.last_synced),
       "---".data], '\n' ∉ l := by
    intro l hl
    have hline : ∀ (k w : Chars), '\n' ∉ k → '\n' ∉ w → '\n' ∉ headerLine k w := by
      intro k w hk hw hmem
      rw [headerLine] at hmem
      rcases List.mem_append.mp hmem with h | h
      · exact hk h
      · rcases List.mem_cons.mp h with h' | h'
        · exact absurd h' (by decide)
        · rcases List.mem_cons.mp h' with h'' | h''
          · exact absurd h'' (by decide)
          · exact hw h''
    simp only [List.mem_cons, List.not_mem_nil, or_false] at hl
    rcases hl with rfl | rfl | rfl | rfl | rfl | rfl | rfl | rfl
    · decide
    · exact hline _ _ (by decide) h1
    · exact hline _ _ (by decide) h2
    · exact hline _ _ (by decide) h3
    · exact hline _ _ (by decide) h4
    · exact hline _ _ (by decide) h5
    · exact hline _ _ (by decide) h6
    · decide
  rw [Part001.fromFrontMatter, getFrontMatter_eq_mkLines, splitOnChar_mkLines _ hnl]
  rw [show (["---".data,
       headerLine "id".data (renderJVal r.id),
       headerLine "subject".data (renderJVal r.subject),
       headerLine "book_id".data (renderJVal (nullishCoalesce r.book_id (.num (-1)))),
       headerLine "parent_id".data (renderJVal (nullishCoalesce r.parent_id (.num (-1)))),
       headerLine "open_yn".data (renderJVal r.open_yn),
       headerLine "last_synced".data (renderJVal r.last_synced),
       "---".data] ++ [([] : Chars)]) =
      ["---".data,
       headerLine "id".data (renderJVal r.id),
       headerLine "subject".data (renderJVal r.subject),
       headerLine "book_id".data (renderJVal (nullishCoalesce r.book_id (.num (-1)))),
       headerLine "parent_id".data (renderJVal (nullishCoalesce r.parent_id (.num (-1)))),
       headerLine "open_yn".data (renderJVal r.open_yn),
       headerLine "last_synced".data (renderJVal r.last_synced),
       "---".data, []] from rfl]
  rw [parseEntries_header_lines]
  simp only [jsObjGet]
  norm_num
  rw [if_neg]
  · rfl
  · simp [hid, hsub]

/-! ## Claim C6: header round-trip -/

/-- Claim C6, counterexample.  The record with `id = 5` and the perfectly
valid subject string `"123"` has both required fields set, yet decoding its
encoded header does not return the record: the parser's numeric coercion
(`isNaN(Number(value)) ? value : Number(value)`) turns the required
`subject` field into the number `123`, and the coercion escape hatch of the
claim covers optional fields only. -/
theorem c6_roundtrip_counterexample :
    (Part001.fromFrontMatter (Part001.getFrontMatter
      { id := .num 5, subject := .str "123".data, book_id := .undefined,
        parent_id := .undefined, open_yn := .undefined, last_synced := .undefined })).map
      PageMeta.subject = .ok (.num 123) ∧
    JVal.num 123 ≠ JVal.str "123".data := by
  constructor
  · rfl
  · decide

/-- Claim C6, amended: for every record whose `id` is a non-zero integer and
whose populated string fields (`subject` included) are trim-stable, free of
newlines and not numeric-looking — numeric-looking string values, the
required `subject` among them, are coerced to numbers by the decoder —
decoding the encoded header yields the record back on all populated fields.
Subjects containing `#` are among those restored verbatim: this revision's
codec treats `#` as an ordinary character. -/
theorem c6_header_roundtrip (r : PageMeta)
    (hid : ∃ i : Int, r.id = .num i ∧ i ≠ 0)
    (hsub : ∃ s : Chars, r.subject = .str s ∧ NiceStr s)
    (hbook : NiceNumOpt r.book_id)
    (hpar : NiceNumOpt r.parent_id)
    (hopen : NiceStrOpt r.open_yn)
    (hlast : NiceStrOpt r.last_synced) :
    (Part001.fromFrontMatter (Part001.getFrontMatter r)).map PageMeta.id = .ok r.id ∧
    (Part001.fromFrontMatter (Part001.getFrontMatter r)).map PageMeta.subject = .ok r.subject ∧
    (r.book_id ≠ .undefined →
      (Part001.fromFrontMatter (Part001.getFrontMatter r)).map PageMeta.book_id
        = .ok r.book_id) ∧
    (r.parent_id ≠ .undefined →
      (Part001.fromFrontMatter (Part001.getFrontMatter r)).map PageMeta.parent_id
        = .ok r.parent_id) ∧
    (r.open_yn ≠ .undefined →
      (Part001.fromFrontMatter (Part001.getFrontMatter r)).map PageMeta.open_yn
        = .ok r.open_yn) ∧
    (r.last_synced ≠ .undefined →
      (Part001.fromFrontMatter (Part001.getFrontMatter r)).map PageMeta.last_synced
        = .ok r.last_synced) := by
  obtain ⟨i, hi, hine⟩ := hid
  obtain ⟨s, hs, hnice⟩ := hsub
  have hco_id : coerceValue (jsTrim (renderJVal r.id)) = .num i := by
    rw [hi]; exact coerceValue_jsTrim_int i
  have hco_sub : coerceValue (jsTrim (renderJVal r.subject)) = .str s := by
    rw [hs]; exact coerceValue_jsTrim_nice hnice
  have h1 : '\n' ∉ renderJVal r.id := by rw [hi]; exact newline_not_mem_intToChars i
  have h2 : '\n' ∉ renderJVal r.subject := by rw [hs]; exact hnice.2.1
  have h3 : '\n' ∉ renderJVal (nullishCoalesce r.book_id (.num (-1))) := by
    rcases hbook with h | ⟨b, h⟩ <;> rw [h]
    · exact newline_not_mem_intToChars (-1)
    · exact newline_not_mem_intToChars b
  have h4 : '\n' ∉ renderJVal (nullishCoalesce r.parent_id (.num (-1))) := by
    rcases hpar with h | ⟨p, h⟩ <;> rw [h]
    · exact newline_not_mem_intToChars (-1)
    · exact newline_not_mem_intToChars p
  have h5 : '\n' ∉ renderJVal r.open_yn := by
    rcases hopen with h | ⟨s5, h, hn5⟩ <;> rw [h]
    · decide
    · exact hn5.2.1
  have h6 : '\n' ∉ renderJVal r.last_synced := by
    rcases hlast with h | ⟨s6, h, hn6⟩ <;> rw [h]
    · decide
    · exact hn6.2.1
  have htid : jsTruthy (coerceValue (jsTrim (renderJVal r.id))) = true := by
    rw [hco_id]; simpa [jsTruthy] using hine
  have htsub : jsTruthy (coerceValue (jsTrim (renderJVal r.subject))) = true := by
    rw [hco_sub]; simpa [jsTruthy] using niceStr_ne_nil hnice
  have hD := fromFrontMatter_getFrontMatter r h1 h2 h3 h4 h5 h6 htid htsub
  rw [hD]
  refine ⟨?_, ?_, ?_, ?_, ?_, ?_⟩
  · simp only [Except.map, hi, renderJVal, coerceValue_jsTrim_int]
  · simp only [Except.map, hs, renderJVal, coerceValue_jsTrim_nice hnice]
  · intro hb
    rcases hbook with h | ⟨b, h⟩
    · exact absurd h hb
    · simp only [Except.map, h, nullishCoalesce, renderJVal, coerceValue_jsTrim_int]
  · intro hp
    rcases hpar with h | ⟨p, h⟩
    · exact absurd h hp
    · simp only [Except.map, h, nullishCoalesce, renderJVal, coerceValue_jsTrim_int,
        Part001.unquoteParentId]
  · intro ho
    rcases hopen with h | ⟨s5, h, hn5⟩
    · exact absurd h ho
    · simp only [Except.map, h, renderJVal, coerceValue_jsTrim_nice hn5]
  · intro hl
    rcases hlast with h | ⟨s6, h, hn6⟩
    · exact absurd h hl
    · simp only [Except.map, h, renderJVal, coerceValue_jsTrim_nice hn6]

/-- Claim C6, witness: the amended round trip evaluated on a fully
populated record whose subject contains `#`. -/
theorem c6_header_roundtrip_witness :
    (Part001.fromFrontMatter (Part001.getFrontMatter
      { id := .num 12, subject := .str "C# Guide".data, book_id := .num 3,
        parent_id := .num (-1), open_yn := .str "Y".data,
        last_synced := .str "2024-01-02T03:04:05.678Z".data })).map PageMeta.id
      = .ok (.num 12) ∧
    (Part001.fromFrontMatter (Part001.getFrontMatter
      { id := .num 12, subject := .str "C# Guide".data, book_id := .num 3,
        parent_id := .num (-1), open_yn := .str "Y".data,
        last_synced := .str "2024-01-02T03:04:05.678Z".data })).map PageMeta.subject
      = .ok (.str "C# Guide".data) := by
  have h := c6_header_roundtrip
    { id := .num 12, subject := .str "C# Guide".data, book_id := .num 3,
      parent_id := .num (-1), open_yn := .str "Y".data,
      last_synced := .str "2024-01-02T03:04:05.678Z".data }
    ⟨12, rfl, by decide⟩
    ⟨"C# Guide".data, rfl, by decide, by decide, by decide⟩
    (Or.inr ⟨3, rfl⟩)
    (Or.inr ⟨-1, rfl⟩)
    (Or.inr ⟨"Y".data, rfl, by decide, by decide, by decide⟩)
    (Or.inr ⟨"2024-01-02T03:04:05.678Z".data, rfl, by decide, by decide, by decide⟩)
  exact ⟨h.1, h.2.1⟩

/-! ## Claim C7: malformed-header detection -/

/-- Claim C7, counterexample.  The header text `id: 0`, `subject: Hello`
lacks neither an `id` field nor a `subject` field, and its `id` value is the
integer `0`; decoding nonetheless fails, because the guard
`!metadata.id || !metadata.subject` tests JavaScript truthiness and the
number `0` is falsy. -/
theorem c7_malformed_counterexample :
    (Part001.fromFrontMatter "id: 0\nsubject: Hello".data).isOk = false ∧
    jsObjGet (parseEntries (splitOnChar '\n' "id: 0\nsubject: Hello".data) []) "id".data
      = .num 0 ∧
    jsObjGet (parseEntries (splitOnChar '\n' "id: 0\nsubject: Hello".data) []) "subject".data
      = .str "Hello".data := by
  refine ⟨rfl, rfl, rfl⟩

/-- Claim C7, amended: decoding a header fails with the malformed-header
error precisely when the parsed `id` entry or the parsed `subject` entry is
missing or falsy (the number `0` and the empty string among the falsy
values); with a truthy `id` — any non-zero integer — and a truthy `subject`
it succeeds. -/
theorem c7_malformed_iff (text : Chars) :
    (Part001.fromFrontMatter text).isOk = false ↔
      (jsTruthy (jsObjGet (parseEntries (splitOnChar '\n' text) []) "id".data) = false ∨
       jsTruthy (jsObjGet (parseEntries (splitOnChar '\n' text) []) "subject".data) = false) := by
  rw [Part001.fromFrontMatter]
  cases h1 : jsTruthy (jsObjGet (parseEntries (splitOnChar '\n' text) []) "id".data) <;>
    cases h2 : jsTruthy (jsObjGet (parseEntries (splitOnChar '\n' text) []) "subject".data) <;>
      simp [h1, h2, Except.isOk, Except.toBool]

/-! ## Title handling and the change detector -/

/-- Model of `sanitizeFileName`: remove every character of the class
`[\\/:*?"<>|]`, the model of `replace(/[\\/:*?"<>|]/g, "")`. -/
def sanitizeFileName (s : Chars) : Chars :=
  s.filter fun c =>
    !(c = '\\' || c = '/' || c = ':' || c = '*' || c = '?' || c = '"' ||
      c = '<' || c = '>' || c = '|')

/-- Model of `fileName.replace(".md", "")`: a string pattern replaces only the first
occurrence. -/
def replaceFirstMd : Chars → Chars
  | [] => []
  | c :: rest =>
    if c = '.' ∧ rest.take 2 = "md".data then rest.drop 2
    else c :: replaceFirstMd rest

/-- Model of `extractTitleFromFilePath`: last `/`-separated path segment with the
first `.md` removed. -/
def extractTitleFromFilePath (path : Chars) : Chars :=
  replaceFirstMd (((splitOnChar '/' path).getLast?).getD [])

/-- Model of `new Date(v).getTime()` for the values that reach it: a string is
parsed by the external `Date` collaborator, abstracted as `parseDate`; a
number is already a millisecond timestamp.  Only truthy values reach this
conversion in the sources. -/
def jvalDateMs (parseDate : Chars → Int) : JVal → Int
  | .str s => parseDate s
  | .num n => n
  | _ => 0

/-- The string content of a header value where the source requires a
string.  A non-string subject would raise a `TypeError` inside
`sanitizeFileName` in the source; the rendering fallback keeps the model
total and is not exercised by any theorem. -/
def jvalStrVal : JVal → Chars
  | .str s => s
  | v => renderJVal v

/-- The change-detector formula shared by `syncToServer` (part_004 lines
256-263) and `isNeedSync` (lib/md.ts): a falsy `last_synced` makes the
document dirty; otherwise it is dirty when the file modification time
exceeds `last_synced` by more than 1000 ms or when the sanitized header
subject differs from the sanitized on-disk title. -/
def needsSyncCalc (parseDate : Chars → Int) (last_synced : JVal) (mtimeMs : Int)
    (subject : JVal) (path : Chars) : Bool :=
  let lastSynced : Option Int :=
    if jsTruthy last_synced then some (jvalDateMs parseDate last_synced) else none
  match lastSynced with
  | none => true
  | some t =>
    decide (mtimeMs - t > 1000) ||
    decide (sanitizeFileName (jvalStrVal subject) ≠
      sanitizeFileName (extractTitleFromFilePath path))

/-! ## Claim C3: the dirty-detection rule -/

/-- Claim C3: a synced document needs a push exactly when `last_synced` is
empty (falsy), or the file modification time exceeds `last_synced` by
strictly more than 1000 ms, or the sanitized header subject differs from
the sanitized current title; in particular a title change makes the
document dirty regardless of all timestamps. -/
theorem c3_needs_sync_iff :
    (∀ (parseDate : Chars → Int) (ls : JVal) (mtimeMs : Int) (subject : JVal) (path : Chars),
      needsSyncCalc parseDate ls mtimeMs subject path = true ↔
        (jsTruthy ls = false ∨
         mtimeMs - jvalDateMs parseDate ls > 1000 ∨
         sanitizeFileName (jvalStrVal subject) ≠
           sanitizeFileName (extractTitleFromFilePath path))) ∧
    (∀ (parseDate : Chars → Int) (ls : JVal) (mtimeMs : Int) (subject : JVal) (path : Chars),
      sanitizeFileName (jvalStrVal subject) ≠
          sanitizeFileName (extractTitleFromFilePath path) →
        needsSyncCalc parseDate ls mtimeMs subject path = true) := by
  have hmain : ∀ (parseDate : Chars → Int) (ls : JVal) (mtimeMs : Int) (subject : JVal)
      (path : Chars),
      needsSyncCalc parseDate ls mtimeMs subject path = true ↔
        (jsTruthy ls = false ∨
         mtimeMs - jvalDateMs parseDate ls > 1000 ∨
         sanitizeFileName (jvalStrVal subject) ≠
           sanitizeFileName (extractTitleFromFilePath path)) := by
    intro parseDate ls mtimeMs subject path
    rw [needsSyncCalc]
    cases h : jsTruthy ls <;> simp [h]
  refine ⟨hmain, ?_⟩
  intro parseDate ls mtimeMs subject path hne
  exact (hmain parseDate ls mtimeMs subject path).mpr (Or.inr (Or.inr hne))

/-- Claim C3, witness: a title drift alone (matching timestamps) makes a
document dirty. -/
theorem c3_needs_sync_witness :
    sanitizeFileName (jvalStrVal (.str "Alpha".data)) ≠
      sanitizeFileName (extractTitleFromFilePath "Book/Beta.md".data) ∧
    needsSyncCalc (fun _ => 0) (.str "2024".data) 0 (.str "Alpha".data)
      "Book/Beta.md".data = true := by
  refine ⟨by decide, ?_⟩
  exact c3_needs_sync_iff.2 (fun _ => 0) (.str "2024".data) 0 (.str "Alpha".data)
    "Book/Beta.md".data (by decide)

/-! ## The lib/md.ts metadata class (object-level decoding) -/

/-- The frontmatter record Obsidian's metadata cache (an external
collaborator) hands to `PageMetadata.fromFrontMatter` in lib/md.ts; a
property the file's header lacks is `undefined`. -/
structure FMRec where
  id : JVal
  subject : JVal
  book_id : JVal
  parent_id : JVal
  open_yn : JVal
  last_synced : JVal
  deriving DecidableEq, Repr

namespace LibMd

/-- The lib/md.ts `PageMetadata` constructor: store the fields and wrap a
subject that contains `#` in double quotes.  (A non-string subject would
raise a `TypeError` at the `includes` call; the pass-through branch keeps
the model total.) -/
def mkPageMetadata (id subject last_synced book_id parent_id open_yn : JVal) : PageMeta :=
  let subject2 :=
    match subject with
    | .str s => if '#' ∈ s then JVal.str ('"' :: s ++ ['"']) else .str s
    | v => v
  { id := id, subject := subject2, book_id := book_id, parent_id := parent_id,
    open_yn := open_yn, last_synced := last_synced }

/-- lib/md.ts `PageMetadata.fromFrontMatter`: throw unless `id` and
`subject` are truthy, then build the record through the constructor. -/
def fromFrontMatter (fm : FMRec) : Except Unit PageMeta :=
  if !jsTruthy fm.id || !jsTruthy fm.subject then .error ()
  else .ok (mkPageMetadata fm.id fm.subject fm.last_synced fm.book_id fm.parent_id fm.open_yn)

end LibMd

/-! ## The push engine (part_004 syncToServer with part_003 ApiClient) -/

/-- JavaScript loose equality `v == -1` as used by the new-document checks:
numbers compare directly, strings are coerced with `Number`, and `NaN`,
`null`, `undefined` compare false. -/
def jsLooseEqNeg1 : JVal → Bool
  | .num n => n == -1
  | .str s =>
    match jsNumber s with
    | some n => n == -1
    | none => false
  | _ => false

/-- An outward call the push engine makes, in program order. -/
inductive PushEvent where
  | updateCall (pageId : JVal) (subject : JVal)
  | uploadCall (pageId : JVal) (image : Chars)
  | pullCall
  deriving DecidableEq, Repr

/-- The transport's response to one `PUT /pages/{id}/`. -/
inductive UpdResp where
  | ok (id : Int)
  | notOk
  deriving DecidableEq, Repr

/-- The transport collaborator: the response to the n-th page update and
the success of the n-th image upload of a run. -/
structure PushOracle where
  upd : Nat → UpdResp
  upl : Nat → Bool

/-- How many updates and uploads a run has issued so far. -/
structure Counters where
  nUpd : Nat
  nUpl : Nat
  deriving DecidableEq, Repr

/-- Result value of `ApiClient.updatePageOnServer` (part_003): the server's
`data.id` on a successful response; on a non-success response the error is
logged and `-1` is returned — no exception is raised. -/
def updatePageResponseId : UpdResp → Int
  | .ok n => n
  | .notOk => -1

/-- Model of `ApiClient.updatePageOnServer` as one step of a run: issues the PUT for
`metadata.id` carrying `metadata.subject`, returns the response id. -/
def updatePageOnServer (o : PushOracle) (c : Counters) (meta : PageMeta) :
    Int × Counters × PushEvent :=
  (updatePageResponseId (o.upd c.nUpd), { c with nUpd := c.nUpd + 1 },
   .updateCall meta.id meta.subject)

/-- Model of `ApiClient.uploadImagesForPage`: POST each image tagged with the page
id; a non-success response raises, aborting the remaining uploads of that
document. -/
def uploadImagesForPage (o : PushOracle) (pageId : JVal) :
    List Chars → Counters → List PushEvent × Counters × Bool
  | [], c => ([], c, true)
  | img :: rest, c =>
    let okr := o.upl c.nUpl
    let c1 : Counters := { c with nUpl := c.nUpl + 1 }
    if okr then
      let r := uploadImagesForPage o pageId rest c1
      (.uploadCall pageId img :: r.1, r.2.1, r.2.2)
    else ([.uploadCall pageId img], c1, false)

/-- The aspects of a vault file the push loop consumes.  The body-handling
collaborators (front-matter stripping, the embedded-image regex and the
vault lookup resolving references to image files) are abstracted into the
resolved image list, which is all the loop passes onward. -/
structure PushFileM where
  name : Chars
  path : Chars
  mtimeMs : Int
  frontmatter : Option FMRec
  images : List Chars

/-- How one file fared inside the push loop. -/
inductive FileOutcome where
  | sentinel
  | noId
  | clean
  | pushed
  | erroredPre
  | erroredPush
  deriving DecidableEq, Repr

/-- Count contribution of an outcome: `changedCount` is incremented on entering the dirty branch, so both a
completed push and an error occurring after that point carry the
increment. -/
def outcomeCount : FileOutcome → Nat
  | .pushed => 1
  | .erroredPush => 1
  | _ => 0

/-- Error contribution of an outcome: `hasError` is set by the per-file catch, wherever the error arose. -/
def outcomeErr : FileOutcome → Bool
  | .erroredPre => true
  | .erroredPush => true
  | _ => false

structure FileResult where
  events : List PushEvent
  counters : Counters
  outcome : FileOutcome
  deriving Repr

/-- One iteration of the `syncToServer` loop (part_004 lines 233-293):
skip the sentinel file; decode the header (a decode failure is caught at
the loop boundary); skip, logging, when the id is falsy; normalise a
`null`/`"null"` parent id to `-1`; evaluate the change detector; and for a
dirty file upload images for an existing id, push the update, and for a
new document (`id == -1`) upload the images tagged with the returned id
and push the update a second time. -/
def syncFile (o : PushOracle) (parseDate : Chars → Int) (f : PushFileM)
    (c : Counters) : FileResult :=
  if f.name = "metadata.md".data then ⟨[], c, .sentinel⟩
  else
    match f.frontmatter with
    | none => ⟨[], c, .erroredPre⟩
    | some fm =>
      match LibMd.fromFrontMatter fm with
      | .error _ => ⟨[], c, .erroredPre⟩
      | .ok meta0 =>
        if !jsTruthy meta0.id then ⟨[], c, .noId⟩
        else
          let meta1 :=
            if meta0.parent_id = .jnull ∨ meta0.parent_id = .str "null".data then
              { meta0 with parent_id := JVal.num (-1) }
            else meta0
          if !needsSyncCalc parseDate meta1.last_synced f.mtimeMs meta1.subject f.path then
            ⟨[], c, .clean⟩
          else
            let pre :=
              if jsLooseEqNeg1 meta1.id then (([] : List PushEvent), c, true)
              else uploadImagesForPage o meta1.id f.images c
            if !pre.2.2 then ⟨pre.1, pre.2.1, .erroredPush⟩
            else
              let meta2 := { meta1 with subject := JVal.str (extractTitleFromFilePath f.path) }
              let upd1 := updatePageOnServer o pre.2.1 meta2
              if jsLooseEqNeg1 meta2.id then
                let meta3 := { meta2 with id := JVal.num upd1.1 }
                let ups := uploadImagesForPage o (.num upd1.1) f.images upd1.2.1
                if !ups.2.2 then ⟨pre.1 ++ upd1.2.2 :: ups.1, ups.2.1, .erroredPush⟩
                else
                  let upd2 := updatePageOnServer o ups.2.1 meta3
                  ⟨pre.1 ++ upd1.2.2 :: ups.1 ++ [upd2.2.2], upd2.2.1, .pushed⟩
              else ⟨pre.1 ++ [upd1.2.2], upd1.2.1, .pushed⟩

/-- The `syncToServer` loop: sequential, and a per-file error is caught and
logged without aborting the remaining files. -/
def syncToServerLoop (o : PushOracle) (parseDate : Chars → Int) :
    List PushFileM → Counters → List PushEvent × Counters × List FileOutcome
  | [], c => ([], c, [])
  | f :: rest, c =>
    let r := syncFile o parseDate f c
    let t := syncToServerLoop o parseDate rest r.counters
    (r.events ++ t.1, t.2.1, r.outcome :: t.2.2)

structure BatchResult where
  events : List PushEvent
  outcomes : List FileOutcome
  changedCount : Nat
  hasError : Bool
  didPull : Bool

/-- Model of `syncToServer` (part_004 lines 227-300): run the loop over the folder's
files, then trigger the trailing pull of the same folder exactly when no
per-file error occurred and at least one document was counted as changed;
otherwise notify that nothing changed.  `changedCount` and `hasError` are
accumulated by the loop in the source; here they are recovered from the
per-file outcomes, which carry the same information. -/
def syncToServer (o : PushOracle) (parseDate : Chars → Int)
    (files : List PushFileM) : BatchResult :=
  let t := syncToServerLoop o parseDate files ⟨0, 0⟩
  let changedCount := (t.2.2.map outcomeCount).sum
  let hasError := t.2.2.any outcomeErr
  let didPull := !hasError && decide (0 < changedCount)
  { events := t.1 ++ (if didPull then [PushEvent.pullCall] else []),
    outcomes := t.2.2, changedCount := changedCount, hasError := hasError,
    didPull := didPull }

/-- Helper: pushing a dirty new document (`id = -1`, empty `last_synced`,
one embedded image) runs the two-phase sequence — update, image upload
tagged with the first response's id, update again — whatever the first
update's response was. -/
theorem syncFile_newdoc (o : PushOracle) (parseDate : Chars → Int)
    (name path : Chars) (mtimeMs : Int) (s : Chars) (bk pid oy : JVal)
    (img : Chars) (c : Counters)
    (hname : name ≠ "metadata.md".data)
    (hsne : s ≠ [])
    (hupl : o.upl c.nUpl = true) :
    syncFile o parseDate
      (PushFileM.mk name path mtimeMs
        (some (FMRec.mk (.num (-1)) (.str s) bk pid oy (.str []))) [img]) c =
      ⟨[PushEvent.updateCall (.num (-1)) (.str (extractTitleFromFilePath path)),
        PushEvent.uploadCall (.num (updatePageResponseId (o.upd c.nUpd))) img,
        PushEvent.updateCall (.num (updatePageResponseId (o.upd c.nUpd)))
          (.str (extractTitleFromFilePath path))],
       Counters.mk (c.nUpd + 2) (c.nUpl + 1), .pushed⟩ := by
  by_cases hp : pid = JVal.jnull ∨ pid = JVal.str "null".data <;>
    simp [syncFile, hname, hsne, hp, LibMd.fromFrontMatter, LibMd.mkPageMetadata,
      jsTruthy, needsSyncCalc, jsLooseEqNeg1, uploadImagesForPage, hupl,
      updatePageOnServer, updatePageResponseId]

/-! ## Claim C1: two-phase push for a new document -/

/-- Claim C1: pushing a dirty document whose header id is `-1` and whose
body holds exactly one embedded image performs exactly two page updates and
one image upload, ordered update–upload–update, where the upload and the
second update are tagged with the id the server returned for the first
update — not `-1`, the server-assigned id being a real one. -/
theorem c1_new_document_two_phase_push (o : PushOracle) (parseDate : Chars → Int)
    (name path : Chars) (mtimeMs : Int) (s : Chars) (bk pid oy : JVal)
    (img : Chars) (n : Int) (c : Counters)
    (hname : name ≠ "metadata.md".data)
    (hsne : s ≠ [])
    (hupd : o.upd c.nUpd = UpdResp.ok n)
    (hn : n ≠ -1)
    (hupl : o.upl c.nUpl = true) :
    (syncFile o parseDate
      (PushFileM.mk name path mtimeMs
        (some (FMRec.mk (.num (-1)) (.str s) bk pid oy (.str []))) [img]) c).events =
      [PushEvent.updateCall (.num (-1)) (.str (extractTitleFromFilePath path)),
       PushEvent.uploadCall (.num n) img,
       PushEvent.updateCall (.num n) (.str (extractTitleFromFilePath path))] ∧
    (syncFile o parseDate
      (PushFileM.mk name path mtimeMs
        (some (FMRec.mk (.num (-1)) (.str s) bk pid oy (.str []))) [img]) c).outcome =
      FileOutcome.pushed ∧
    JVal.num n ≠ JVal.num (-1) := by
  rw [syncFile_newdoc o parseDate name path mtimeMs s bk pid oy img c hname hsne hupl]
  refine ⟨?_, rfl, ?_⟩
  · rw [hupd]
    rfl
  · simp [hn]

/-- Claim C1, witness: the two-phase push evaluated on a concrete new
document with one image and a transport returning id 42. -/
theorem c1_new_document_two_phase_push_witness :
    (syncFile (PushOracle.mk (fun _ => .ok 42) (fun _ => true)) (fun _ => 0)
      (PushFileM.mk "Doc.md".data "Book/Doc.md".data 0
        (some (FMRec.mk (.num (-1)) (.str "Doc".data) (.num 3) .undefined .undefined (.str [])))
        ["img.png".data]) (Counters.mk 0 0)).events =
      [PushEvent.updateCall (.num (-1)) (.str (extractTitleFromFilePath "Book/Doc.md".data)),
       PushEvent.uploadCall (.num 42) "img.png".data,
       PushEvent.updateCall (.num 42) (.str (extractTitleFromFilePath "Book/Doc.md".data))] ∧
    (syncFile (PushOracle.mk (fun _ => .ok 42) (fun _ => true)) (fun _ => 0)
      (PushFileM.mk "Doc.md".data "Book/Doc.md".data 0
        (some (FMRec.mk (.num (-1)) (.str "Doc".data) (.num 3) .undefined .undefined (.str [])))
        ["img.png".data]) (Counters.mk 0 0)).outcome = FileOutcome.pushed ∧
    JVal.num 42 ≠ JVal.num (-1) :=
  c1_new_document_two_phase_push (PushOracle.mk (fun _ => .ok 42) (fun _ => true))
    (fun _ => 0) "Doc.md".data "Book/Doc.md".data 0 "Doc".data (.num 3) .undefined .undefined
    "img.png".data 42 (Counters.mk 0 0) (by decide) (by decide) rfl (by decide) rfl

/-! ## Claim C9: non-success page updates are silent -/

/-- Claim C9: a non-success response to a page update makes
`updatePageOnServer` return `-1` instead of raising; inside a batch push of
a new document this leaves the file counted as pushed and the error flag
clear, so the trailing pull still fires, while the follow-up image upload
and second update of the two-phase sequence are issued with page id `-1`. -/
theorem c9_nonok_update_silent (o : PushOracle) (parseDate : Chars → Int)
    (name path : Chars) (mtimeMs : Int) (s : Chars) (bk pid oy : JVal)
    (img : Chars)
    (hname : name ≠ "metadata.md".data)
    (hsne : s ≠ [])
    (hupd : o.upd 0 = UpdResp.notOk)
    (hupl : o.upl 0 = true) :
    updatePageResponseId UpdResp.notOk = -1 ∧
    (syncToServer o parseDate
      [PushFileM.mk name path mtimeMs
        (some (FMRec.mk (.num (-1)) (.str s) bk pid oy (.str []))) [img]]).events =
      [PushEvent.updateCall (.num (-1)) (.str (extractTitleFromFilePath path)),
       PushEvent.uploadCall (.num (-1)) img,
       PushEvent.updateCall (.num (-1)) (.str (extractTitleFromFilePath path)),
       PushEvent.pullCall] ∧
    (syncToServer o parseDate
      [PushFileM.mk name path mtimeMs
        (some (FMRec.mk (.num (-1)) (.str s) bk pid oy (.str []))) [img]]).changedCount = 1 ∧
    (syncToServer o parseDate
      [PushFileM.mk name path mtimeMs
        (some (FMRec.mk (.num (-1)) (.str s) bk pid oy (.str []))) [img]]).hasError = false ∧
    (syncToServer o parseDate
      [PushFileM.mk name path mtimeMs
        (some (FMRec.mk (.num (-1)) (.str s) bk pid oy (.str []))) [img]]).didPull = true := by
  have hf := syncFile_newdoc o parseDate name path mtimeMs s bk pid oy img
    (Counters.mk 0 0) hname hsne hupl
  rw [hupd] at hf
  refine ⟨rfl, ?_, ?_, ?_, ?_⟩ <;>
    simp [syncToServer, syncToServerLoop, hf, outcomeCount, outcomeErr,
      updatePageResponseId]

/-- Claim C9, witness: the silent-failure batch evaluated on a concrete new
document against a transport whose updates all fail. -/
theorem c9_nonok_update_silent_witness :
    updatePageResponseId UpdResp.notOk = -1 ∧
    (syncToServer (PushOracle.mk (fun _ => .notOk) (fun _ => true)) (fun _ => 0)
      [PushFileM.mk "Doc.md".data "Book/Doc.md".data 0
        (some (FMRec.mk (.num (-1)) (.str "Doc".data) (.num 3) .undefined .undefined (.str [])))
        ["img.png".data]]).events =
      [PushEvent.updateCall (.num (-1)) (.str (extractTitleFromFilePath "Book/Doc.md".data)),
       PushEvent.uploadCall (.num (-1)) "img.png".data,
       PushEvent.updateCall (.num (-1)) (.str (extractTitleFromFilePath "Book/Doc.md".data)),
       PushEvent.pullCall] ∧
    (syncToServer (PushOracle.mk (fun _ => .notOk) (fun _ => true)) (fun _ => 0)
      [PushFileM.mk "Doc.md".data "Book/Doc.md".data 0
        (some (FMRec.mk (.num (-1)) (.str "Doc".data) (.num 3) .undefined .undefined (.str [])))
        ["img.png".data]]).changedCount = 1 ∧
    (syncToServer (PushOracle.mk (fun _ => .notOk) (fun _ => true)) (fun _ => 0)
      [PushFileM.mk "Doc.md".data "Book/Doc.md".data 0
        (some (FMRec.mk (.num (-1)) (.str "Doc".data) (.num 3) .undefined .undefined (.str [])))
        ["img.png".data]]).hasError = false ∧
    (syncToServer (PushOracle.mk (fun _ => .notOk) (fun _ => true)) (fun _ => 0)
      [PushFileM.mk "Doc.md".data "Book/Doc.md".data 0
        (some (FMRec.mk (.num (-1)) (.str "Doc".data) (.num 3) .undefined .undefined (.str [])))
        ["img.png".data]]).didPull = true :=
  c9_nonok_update_silent (PushOracle.mk (fun _ => .notOk) (fun _ => true)) (fun _ => 0)
    "Doc.md".data "Book/Doc.md".data 0 "Doc".data (.num 3) .undefined .undefined "img.png".data
    (by decide) (by decide) rfl rfl

/-! ## Claim C5: batch push and the trailing pull -/

theorem pullCall_not_mem_upload (o : PushOracle) (pageId : JVal) (imgs : List Chars)
    (c : Counters) : PushEvent.pullCall ∉ (uploadImagesForPage o pageId imgs c).1 := by
  induction imgs generalizing c with
  | nil => simp [uploadImagesForPage]
  | cons img rest ih =>
    rw [uploadImagesForPage]
    by_cases h : o.upl c.nUpl <;> simp [h, ih]

theorem pullCall_not_mem_syncFile (o : PushOracle) (pd : Chars → Int) (f : PushFileM)
    (c : Counters) : PushEvent.pullCall ∉ (syncFile o pd f c).events := by
  unfold syncFile
  repeat' split
  all_goals
    try simp_all [List.mem_append, List.mem_cons, pullCall_not_mem_upload, updatePageOnServer]
  all_goals repeat' split
  all_goals
    simp_all [List.mem_append, List.mem_cons, pullCall_not_mem_upload, updatePageOnServer]

theorem syncToServerLoop_spec (o : PushOracle) (pd : Chars → Int) (files : List PushFileM)
    (c : Counters) :
    (syncToServerLoop o pd files c).2.2.length = files.length ∧
    PushEvent.pullCall ∉ (syncToServerLoop o pd files c).1 := by
  induction files generalizing c with
  | nil => simp [syncToServerLoop]
  | cons f rest ih =>
    rw [syncToServerLoop]
    refine ⟨by simp [(ih _).1], ?_⟩
    simp only [List.mem_append]
    push_neg
    exact ⟨pullCall_not_mem_syncFile o pd f c, (ih _).2⟩

theorem sum_outcomeCount_eq_filter {outs : List FileOutcome}
    (h : ∀ out ∈ outs, outcomeErr out = false) :
    (outs.map outcomeCount).sum =
      (outs.filter fun out => out == FileOutcome.pushed).length := by
  induction outs with
  | nil => rfl
  | cons a rest ih =>
    have ha := h a (by simp)
    have hr := ih fun x hx => h x (List.mem_cons_of_mem _ hx)
    cases a <;> simp_all +decide [outcomeCount, outcomeErr, List.filter_cons]
    omega

/-- Claim C5: the trailing automatic pull of a batch push fires exactly when
no per-file error occurred and at least one document was counted as
changed; every file of the batch is attempted (one outcome each, errors
caught without aborting the loop); the error flag is set exactly when some
file errored; and in an error-free batch the changed count is exactly the
number of pushed documents. -/
theorem c5_batch_trailing_pull (o : PushOracle) (pd : Chars → Int)
    (files : List PushFileM) :
    ((syncToServer o pd files).didPull = true ↔
      (syncToServer o pd files).hasError = false ∧
        0 < (syncToServer o pd files).changedCount) ∧
    (PushEvent.pullCall ∈ (syncToServer o pd files).events ↔
      (syncToServer o pd files).hasError = false ∧
        0 < (syncToServer o pd files).changedCount) ∧
    (syncToServer o pd files).outcomes.length = files.length ∧
    ((syncToServer o pd files).hasError = true ↔
      ∃ out ∈ (syncToServer o pd files).outcomes, outcomeErr out = true) ∧
    ((syncToServer o pd files).hasError = false →
      (syncToServer o pd files).changedCount =
        ((syncToServer o pd files).outcomes.filter fun out =>
          out == FileOutcome.pushed).length) := by
  obtain ⟨hlen, hpull⟩ := syncToServerLoop_spec o pd files ⟨0, 0⟩
  have hdp : (syncToServer o pd files).didPull = true ↔
      (syncToServer o pd files).hasError = false ∧
        0 < (syncToServer o pd files).changedCount := by
    simp [syncToServer]
  refine ⟨hdp, ?_, ?_, ?_, ?_⟩
  · rw [← hdp]
    have hev : (syncToServer o pd files).events =
        (syncToServerLoop o pd files ⟨0, 0⟩).1 ++
          (if (syncToServer o pd files).didPull then [PushEvent.pullCall] else []) := rfl
    rw [hev]
    constructor
    · intro hmem
      rcases List.mem_append.mp hmem with hm | hm
      · exact absurd hm hpull
      · by_contra hnot
        rw [Bool.not_eq_true] at hnot
        rw [hnot] at hm
        simp at hm
    · intro hdpt
      rw [hdpt]
      simp
  · simpa [syncToServer] using hlen
  · simp [syncToServer, List.any_eq_true]
  · intro herr
    simp only [syncToServer] at herr ⊢
    rw [List.any_eq_false] at herr
    exact sum_outcomeCount_eq_filter fun out hout =>
      Bool.not_eq_true _ ▸ herr out hout

/-- Claim C5, witness: a one-file error-free batch, where the changed count
equals the number of pushed files. -/
theorem c5_batch_trailing_pull_witness :
    (syncToServer (PushOracle.mk (fun _ => .ok 42) (fun _ => true)) (fun _ => 0)
      [PushFileM.mk "Doc.md".data "Book/Doc.md".data 0
        (some (FMRec.mk (.num (-1)) (.str "Doc".data) (.num 3) .undefined .undefined (.str [])))
        ["img.png".data]]).hasError = false ∧
    (syncToServer (PushOracle.mk (fun _ => .ok 42) (fun _ => true)) (fun _ => 0)
      [PushFileM.mk "Doc.md".data "Book/Doc.md".data 0
        (some (FMRec.mk (.num (-1)) (.str "Doc".data) (.num 3) .undefined .undefined (.str [])))
        ["img.png".data]]).changedCount =
      ((syncToServer (PushOracle.mk (fun _ => .ok 42) (fun _ => true)) (fun _ => 0)
        [PushFileM.mk "Doc.md".data "Book/Doc.md".data 0
          (some (FMRec.mk (.num (-1)) (.str "Doc".data) (.num 3) .undefined .undefined (.str [])))
          ["img.png".data]]).outcomes.filter fun out =>
        out == FileOutcome.pushed).length :=
  ⟨rfl,
    (c5_batch_trailing_pull (PushOracle.mk (fun _ => .ok 42) (fun _ => true)) (fun _ => 0)
      [PushFileM.mk "Doc.md".data "Book/Doc.md".data 0
        (some (FMRec.mk (.num (-1)) (.str "Doc".data) (.num 3) .undefined .undefined (.str [])))
        ["img.png".data]]).2.2.2.2 rfl⟩

/-! ## The creation-event handler (part_004, the Duplicate Reconciler) -/

/-- What the `vault.on("create")` handler decides to do with a file. -/
inductive CreateAction where
  | ignored
  | stampNew
  | skipSentinel
  | untouched
  | reclassified (meta : PageMeta)
  | errored
  deriving DecidableEq, Repr

/-- The creation-event handler of part_004 (onload, lines 119-152): bail out
before layout is ready or while a sync is in progress; a blank markdown
file gets a fresh header stamped; the sentinel is skipped; a non-empty file
whose header carries a truthy `last_synced` is reclassified as a duplicate
— id rewritten to `-1`, `last_synced` cleared — exactly when the elapsed
whole seconds `Math.floor((now - last_synced)/1000)` exceed 1.  The rewrite
of the body (`getFrontMatter() + getPureContent(content)`) is carried as
the new metadata; a decode failure leaves the rejected promise of the
source, `errored` here. -/
def onCreate (layoutReady isSyncProcess isMdFile : Bool) (name content : Chars)
    (frontmatter : Option FMRec) (nowMs : Int) (parseDate : Chars → Int) :
    CreateAction :=
  if !layoutReady then .ignored
  else if isSyncProcess then .ignored
  else if !isMdFile then .ignored
  else if jsTrim content = [] then .stampNew
  else if name = "metadata.md".data then .skipSentinel
  else
    match frontmatter with
    | none => .errored
    | some fm =>
      match LibMd.fromFrontMatter fm with
      | .error _ => .errored
      | .ok meta =>
        if jsTruthy meta.last_synced then
          let lastMs := jvalDateMs parseDate meta.last_synced
          let diffSec := Int.fdiv (nowMs - lastMs) 1000
          if diffSec > 1 then
            .reclassified { meta with id := JVal.num (-1), last_synced := JVal.str [] }
          else .untouched
        else .untouched

/-! ## Claim C2: the duplicate-detection threshold -/

/-- Claim C2, counterexample.  A freshly created non-empty, non-sentinel
file whose `last_synced` lies 1500 ms in the past has a gap that exceeds
1 second, yet the handler leaves it untouched: the code compares the
floored whole-second difference (`Math.floor(1500/1000) = 1`) against `> 1`,
so reclassification needs a gap of at least 2000 ms. -/
theorem c2_duplicate_threshold_counterexample :
    onCreate true false true "Doc.md".data "body".data
      (some (FMRec.mk (.num 7) (.str "Doc".data) (.num 3) .undefined .undefined
        (.str "2024-01-01T00:00:00.000Z".data))) 10000 (fun _ => 8500) =
      CreateAction.untouched ∧
    ((10000 : Int) - 8500 > 1000) := by
  exact ⟨rfl, by decide⟩

/-- Claim C2, amended: for a non-empty, non-sentinel markdown file observed
by the creation handler whose decoded header carries a truthy
`last_synced`, the file is reclassified as a duplicate (id rewritten to
`-1`, `last_synced` cleared) exactly when the floored whole-second gap
`Math.floor((now - last_synced)/1000)` exceeds 1, i.e. when the gap is at
least 2000 ms; any smaller gap — 1999 ms included, and in particular
500 ms — leaves the file untouched, while a gap of 2 s reclassifies. -/
theorem c2_duplicate_threshold (name content : Chars) (fm : FMRec)
    (meta : PageMeta) (nowMs : Int) (parseDate : Chars → Int)
    (hcontent : jsTrim content ≠ [])
    (hname : name ≠ "metadata.md".data)
    (hdec : LibMd.fromFrontMatter fm = .ok meta)
    (hls : jsTruthy meta.last_synced = true) :
    (Int.fdiv (nowMs - jvalDateMs parseDate meta.last_synced) 1000 > 1 →
      onCreate true false true name content (some fm) nowMs parseDate =
        .reclassified { meta with id := JVal.num (-1), last_synced := JVal.str [] }) ∧
    (Int.fdiv (nowMs - jvalDateMs parseDate meta.last_synced) 1000 ≤ 1 →
      onCreate true false true name content (some fm) nowMs parseDate = .untouched) ∧
    (Int.fdiv (nowMs - jvalDateMs parseDate meta.last_synced) 1000 > 1 ↔
      nowMs - jvalDateMs parseDate meta.last_synced ≥ 2000) := by
  have hiff : Int.fdiv (nowMs - jvalDateMs parseDate meta.last_synced) 1000 > 1 ↔
      nowMs - jvalDateMs parseDate meta.last_synced ≥ 2000 := by
    rw [Int.fdiv_eq_ediv _ (by omega)]
    omega
  refine ⟨?_, ?_, hiff⟩ <;> intro hgap <;>
    simp [onCreate, hcontent, hname, hdec, hls, hgap]

/-- Claim C2, witness: a 2000 ms gap reclassifies (and a 500 ms gap, per the
second clause at a different instant, does not). -/
theorem c2_duplicate_threshold_witness :
    (onCreate true false true "Doc.md".data "body".data
      (some (FMRec.mk (.num 7) (.str "Doc".data) (.num 3) .undefined .undefined
        (.str "t".data))) 10000 (fun _ => 8000) =
      CreateAction.reclassified
        { id := JVal.num (-1), subject := JVal.str "Doc".data, book_id := JVal.num 3,
          parent_id := JVal.undefined, open_yn := JVal.undefined,
          last_synced := JVal.str [] }) ∧
    (onCreate true false true "Doc.md".data "body".data
      (some (FMRec.mk (.num 7) (.str "Doc".data) (.num 3) .undefined .undefined
        (.str "t".data))) 10000 (fun _ => 9500) = CreateAction.untouched) := by
  constructor
  · exact (c2_duplicate_threshold "Doc.md".data "body".data
      (FMRec.mk (.num 7) (.str "Doc".data) (.num 3) .undefined .undefined (.str "t".data))
      (LibMd.mkPageMetadata (.num 7) (.str "Doc".data) (.str "t".data) (.num 3)
        .undefined .undefined)
      10000 (fun _ => 8000) (by decide) (by decide) rfl rfl).1 (by decide)
  · exact (c2_duplicate_threshold "Doc.md".data "body".data
      (FMRec.mk (.num 7) (.str "Doc".data) (.num 3) .undefined .undefined (.str "t".data))
      (LibMd.mkPageMetadata (.num 7) (.str "Doc".data) (.str "t".data) (.num 3)
        .undefined .undefined)
      10000 (fun _ => 9500) (by decide) (by decide) rfl rfl).2.1 (by decide)

/-! ## The pull operations (part_004 and part_005 revisions) -/

/-- An outward step of a Pull, in program order: the HTTP fetch of the book,
the purge of the folder contents, the rewrite of the pages. -/
inductive PullEvent where
  | fetchBook (bookId : Int)
  | purge
  | save
  deriving DecidableEq, Repr

inductive PullResult where
  | noMetadata
  | fetchFailed
  | saved
  deriving DecidableEq, Repr

/-- Model of `syncFromServer` of the part_004 revision (lines 196-225): resolve the
book id from the sentinel, fetch the book, bail out on a non-success
response, and only then purge the folder and save the fetched pages. -/
def syncFromServer004 (bookId : Option Int) (fetchOk : Bool) :
    List PullEvent × PullResult :=
  match bookId with
  | none => ([], .noMetadata)
  | some id =>
    if !fetchOk then ([.fetchBook id], .fetchFailed)
    else ([.fetchBook id, .purge, .save], .saved)

/-- Model of `syncFromServer` of the part_005 revision (lines 123-156): purge the
folder contents first, then resolve the book id, fetch, and save — a
non-success fetch aborts after the purge has already happened. -/
def syncFromServer005 (bookId : Option Int) (fetchOk : Bool) :
    List PullEvent × PullResult :=
  match bookId with
  | none => ([PullEvent.purge], .noMetadata)
  | some id =>
    if !fetchOk then ([PullEvent.purge, .fetchBook id], .fetchFailed)
    else ([PullEvent.purge, .fetchBook id, .save], .saved)

/-! ## Claim C4: fetch before purge -/

/-- Claim C4, counterexample.  In the part_005 revision's Pull the purge
runs before the fetch: with a failing fetch the operation aborts, but the
purge event has already occurred, so local files under the folder are
gone. -/
theorem c4_purge_before_fetch_counterexample :
    syncFromServer005 (some 7) false =
      ([PullEvent.purge, PullEvent.fetchBook 7], PullResult.fetchFailed) ∧
    PullEvent.purge ∈ (syncFromServer005 (some 7) false).1 := by
  exact ⟨rfl, by simp [syncFromServer005]⟩

/-- Claim C4, amended: in the part_004 revision's Pull the remote book is
fetched before any purge — a non-success fetch aborts the Pull with the
fetch as its only outward step and no purge performed, and in the success
case the purge strictly follows the fetch; the part_005 revision purges
first, so there a failed fetch leaves the folder already purged. -/
theorem c4_pull_fetch_before_purge (id : Int) :
    syncFromServer004 (some id) false =
      ([PullEvent.fetchBook id], PullResult.fetchFailed) ∧
    PullEvent.purge ∉ (syncFromServer004 (some id) false).1 ∧
    syncFromServer004 (some id) true =
      ([PullEvent.fetchBook id, PullEvent.purge, PullEvent.save], PullResult.saved) := by
  refine ⟨rfl, ?_, rfl⟩
  simp [syncFromServer004]

/-! ## The identity resolver (getParentId, lib/md.ts lines 101-139) -/

/-- What the resolver needs of a grandparent folder: its path. -/
structure GrandFolder where
  path : Chars

/-- What the resolver needs of the file's parent folder: its name and its
own parent, absent at the collection root. -/
structure ParentFolder where
  name : Chars
  parent : Option GrandFolder

/-- The candidate sibling file as the vault and metadata cache (external
collaborators) present it. -/
structure SiblingFile where
  extension : Chars
  frontmatter : Option FMRec

/-- Model of `getParentId`: `-1` when the file has no parent folder or the parent
folder has no parent; otherwise look up `{grandparent}/{parentName}.md`,
and return its cached frontmatter `id` when that is a truthy number —
`-1` in every other case.  The second component lists the sibling paths the
resolver consulted. -/
def getParentId (parent : Option ParentFolder) (vault : Chars → Option SiblingFile) :
    Int × List Chars :=
  match parent with
  | none => (-1, [])
  | some pf =>
    match pf.parent with
    | none => (-1, [])
    | some gp =>
      let potentialFilePath := gp.path ++ '/' :: (pf.name ++ ".md".data)
      match vault potentialFilePath with
      | none => (-1, [potentialFilePath])
      | some af =>
        if af.extension ≠ "md".data then (-1, [potentialFilePath])
        else
          match af.frontmatter with
          | none => (-1, [potentialFilePath])
          | some fm =>
            match fm.id with
            | .num n => if n = 0 then (-1, [potentialFilePath]) else (n, [potentialFilePath])
            | _ => (-1, [potentialFilePath])

/-! ## Claim C8: identity resolution terminates at the root -/

/-- Claim C8: for a document at the collection root — no parent folder, or a
parent folder with no parent of its own — parent-id resolution returns `-1`
directly, consulting no sibling file at all. -/
theorem c8_root_parent_id (parent : Option ParentFolder)
    (vault : Chars → Option SiblingFile)
    (h : parent = none ∨ ∃ pf, parent = some pf ∧ pf.parent = none) :
    getParentId parent vault = (-1, []) := by
  rcases h with rfl | ⟨pf, rfl, hgp⟩
  · rfl
  · simp [getParentId, hgp]

/-- Claim C8, witness: a root-level file resolves to `-1` without reads even
over a vault that would offer a sibling with id 9. -/
theorem c8_root_parent_id_witness :
    getParentId (some (ParentFolder.mk "Book".data none))
      (fun _ => some (SiblingFile.mk "md".data
        (some (FMRec.mk (.num 9) (.str "Book".data) .undefined .undefined .undefined .undefined)))) =
      (-1, []) :=
  c8_root_parent_id (some (ParentFolder.mk "Book".data none))
    (fun _ => some (SiblingFile.mk "md".data
      (some (FMRec.mk (.num 9) (.str "Book".data) .undefined .undefined .undefined .undefined))))
    (Or.inr ⟨ParentFolder.mk "Book".data none, rfl, rfl⟩)

/-! ## The purge step (deleteFolderContents, lib/utils.ts lines 71-81) -/

/-- A direct child of the target folder: a file, or a subfolder with its
subtree. -/
inductive Entry where
  | file (name : Chars)
  | dir (name : Chars) (children : List Entry)

/-- The only children `deleteFolderContents` preserves: direct child FILES
named exactly `metadata.md`. -/
def isSentinelFile : Entry → Bool
  | .file n => n = "metadata.md".data
  | .dir _ _ => false

/-- Model of `deleteFolderContents`: iterate the folder's direct children, skip (and
so keep) a file named `metadata.md`, and trash every other child —
`trashFile` on a subfolder removes it with its entire subtree.  The result
is the list of surviving direct children. -/
def deleteFolderContents : List Entry → List Entry
  | [] => []
  | Entry.file n :: rest =>
    if n = "metadata.md".data then Entry.file n :: deleteFolderContents rest
    else deleteFolderContents rest
  | Entry.dir _ _ :: rest => deleteFolderContents rest

/-! ## Claim C10: the purge preserves only the root sentinel -/

/-- Claim C10: the purge before a Pull keeps exactly the direct child files
named `metadata.md`; every other direct child — subfolders included — is
trashed, and since a trashed subfolder goes with its whole subtree, a
sentinel `metadata.md` nested inside a subfolder does not survive. -/
theorem c10_purge_keeps_only_sentinel (children : List Entry) :
    deleteFolderContents children = children.filter isSentinelFile ∧
    (∀ e ∈ deleteFolderContents children, e = Entry.file "metadata.md".data) ∧
    (∀ (name : Chars) (cs : List Entry), Entry.dir name cs ∈ children →
      Entry.dir name cs ∉ deleteFolderContents children) := by
  have hfil : deleteFolderContents children = children.filter isSentinelFile := by
    induction children with
    | nil => rfl
    | cons e rest ih =>
      cases e with
      | file n =>
        by_cases h : n = "metadata.md".data <;>
          simp [deleteFolderContents, isSentinelFile, h, ih, List.filter_cons]
      | dir n cs => simp [deleteFolderContents, isSentinelFile, ih, List.filter_cons]
  have hshape : ∀ e ∈ deleteFolderContents children, e = Entry.file "metadata.md".data := by
    intro e he
    rw [hfil] at he
    have hsent := List.of_mem_filter he
    cases e with
    | file n =>
      simp only [isSentinelFile, decide_eq_true_eq] at hsent
      rw [hsent]
    | dir n cs => simp [isSentinelFile] at hsent
  refine ⟨hfil, hshape, ?_⟩
  intro name cs _ hmem
  have := hshape _ hmem
  exact absurd this (by simp)

/-- Claim C10, witness: a folder holding the sentinel, an ordinary file and
a subfolder that itself contains a `metadata.md` keeps only the root
sentinel; the subfolder, nested sentinel included, is gone. -/
theorem c10_purge_keeps_only_sentinel_witness :
    deleteFolderContents
      [Entry.file "metadata.md".data, Entry.file "A.md".data,
       Entry.dir "Sub".data [Entry.file "metadata.md".data]] =
      [Entry.file "metadata.md".data] ∧
    Entry.dir "Sub".data [Entry.file "metadata.md".data] ∉
      deleteFolderContents
        [Entry.file "metadata.md".data, Entry.file "A.md".data,
         Entry.dir "Sub".data [Entry.file "metadata.md".data]] := by
  constructor
  · rfl
  · exact (c10_purge_keeps_only_sentinel
      [Entry.file "metadata.md".data, Entry.file "A.md".data,
       Entry.dir "Sub".data [Entry.file "metadata.md".data]]).2.2
      "Sub".data [Entry.file "metadata.md".data] (by simp)
